import Mathlib

/-!
Verification of the buffered, interrupt-driven UART engine of
`src/cores/arduino/UART.cpp` (class `UartClass`).

Shallow embedding notes.

* The mutable members of `UartClass` together with the memory-mapped USART
  registers it touches are collected in one state record `Uart`.  Hardware
  register bits are modelled as individual boolean fields named after the
  bits the code tests or sets: `DREIE`/`RXCIE` live in `CTRLA`, `RXEN`/`TXEN`
  in `CTRLB`, `DREIF`/`TXCIF` in `STATUS`; `TXDATAL`, `BAUD` and `CTRLC` are
  whole registers.
* `SERIAL_TX_BUFFER_SIZE` and `SERIAL_RX_BUFFER_SIZE` are configuration
  macros from headers outside this translation unit; they appear as the
  parameters `N` (TX) and `RN` (RX).
* Pin configuration (`pinMode`, `digitalWrite`) and the port multiplexer
  (`PORTMUX`) are external collaborators (spec section 1) with no effect on
  the engine state modelled here, so they are not represented.
* Writing `TXDATAL` makes the hardware clear the `DREIF` status bit, and
  writing a one to `TXCIF` in `STATUS` clears it; both hardware effects are
  folded into the embedding of the store instructions that cause them.
* The busy-wait loops in `write`, `flush` and (through `flush`) `end` spin
  until the hardware drains; the hardware's asynchronous progress is
  modelled by an explicit list of `HwEvent`s consumed one per loop
  iteration, and a loop whose event list runs out returns `none`
  ("still spinning"), never a wrong value.
-/

namespace UartClass

/-- Hardware/software state of one UART port: the mutable members of
`UartClass` plus the USART register bits the code reads and writes. -/
structure Uart where
  tx_buffer : Nat → Nat
  tx_buffer_head : Nat
  tx_buffer_tail : Nat
  rx_buffer_head : Nat
  rx_buffer_tail : Nat
  written : Bool
  DREIE : Bool
  RXCIE : Bool
  DREIF : Bool
  TXCIF : Bool
  TXDATAL : Nat
  RXEN : Bool
  TXEN : Bool
  CLK2X : Bool
  BAUD : Int
  CTRLC : Nat

/-- Asynchronous hardware progress on the transmit side.  `shift`: the data
register's byte moves into the transmit shift register, so the hardware sets
`DREIF`.  `complete`: the frame in the shift register has been fully shifted
out while no new data is pending (which requires `DREIF` to be set, per the
datasheet's TXCIF description echoed in the spec glossary), so the hardware
sets `TXCIF`.  `idle`: no hardware progress this iteration.  Software, not
hardware, clears these flags, so no clearing events exist. -/
inductive HwEvent where
  | idle : HwEvent
  | shift : HwEvent
  | complete : HwEvent

/-- Effect of one hardware event on the state. -/
def applyHw : HwEvent → Uart → Uart
  | .idle, s => s
  | .shift, s => { s with DREIF := true }
  | .complete, s => if s.DREIF = true then { s with TXCIF := true } else s

/-- Embedding of `UartClass::_tx_data_empty_irq` (UART.cpp lines 93-111):
read the byte at `tail`, advance `tail` modulo `SERIAL_TX_BUFFER_SIZE`,
store the byte to `TXDATAL` (the store makes hardware clear `DREIF`), clear
`TXCIF` by writing one to it, and if the buffer is now empty clear `DREIE`
in `CTRLA`. -/
def tx_data_empty_irq (N : Nat) (s : Uart) : Uart :=
  let c := s.tx_buffer s.tx_buffer_tail
  let tail := (s.tx_buffer_tail + 1) % N
  let s1 : Uart :=
    { s with tx_buffer_tail := tail, TXDATAL := c, DREIF := false, TXCIF := false }
  if s1.tx_buffer_head = s1.tx_buffer_tail then { s1 with DREIE := false } else s1

/-- Embedding of `UartClass::_poll_tx_data_empty` (lines 114-130): inside an
atomic block, run the transmit handler only when `DREIE` and `DREIF` are
both set. -/
def poll_tx_data_empty (N : Nat) (s : Uart) : Uart :=
  if s.DREIE = true ∧ s.DREIF = true then tx_data_empty_irq N s else s

/-- Embedding of one iteration of the loop body of `UartClass::write`
(lines 274-293), the single atomic block: fast path when `DREIE` clear and
`DREIF` set (store `c` to `TXDATAL`, clear `TXCIF`, set `_written`, return
1); buffered path when a slot is free (store `c` at `head`, advance `head`,
set `DREIE`, return 1); `none` when the buffer is full (the block changes
nothing and the caller polls and retries). -/
def write_attempt (N : Nat) (c : Nat) (s : Uart) : Option (Uart × Nat) :=
  if s.DREIE = false ∧ s.DREIF = true then
    some ({ s with TXDATAL := c, DREIF := false, TXCIF := false, written := true }, 1)
  else
    let nexthead := (s.tx_buffer_head + 1) % N
    let buf := Function.update s.tx_buffer s.tx_buffer_head c
    if nexthead ≠ s.tx_buffer_tail then
      some ({ s with tx_buffer := buf, tx_buffer_head := nexthead, DREIE := true }, 1)
    else
      none

/-- Embedding of `UartClass::write` (lines 265-300): retry the atomic
attempt, invoking `_poll_tx_data_empty` between attempts; one hardware
event from `env` may land before each poll. -/
def write (N : Nat) (c : Nat) : List HwEvent → Uart → Option (Uart × Nat)
  | [], s =>
    match write_attempt N c s with
    | some r => some r
    | none => none
  | e :: rest, s =>
    match write_attempt N c s with
    | some r => some r
    | none => write N c rest (poll_tx_data_empty N (applyHw e s))

/-- Embedding of the spin loop of `UartClass::flush` (line 255-260):
while `DREIE` is set or `TXCIF` is clear, invoke `_poll_tx_data_empty`;
one hardware event from `env` may land before each poll. -/
def flushLoop (N : Nat) : List HwEvent → Uart → Option Uart
  | [], s =>
    if s.DREIE = false ∧ s.TXCIF = true then some s else none
  | e :: rest, s =>
    if s.DREIE = false ∧ s.TXCIF = true then some s
    else flushLoop N rest (poll_tx_data_empty N (applyHw e s))

/-- Embedding of `UartClass::flush` (lines 245-263): return immediately when
`_written` is false, otherwise spin until `DREIE` is clear and `TXCIF` is
set. -/
def flush (N : Nat) (env : List HwEvent) (s : Uart) : Option Uart :=
  if s.written = false then some s
  else flushLoop N env s

/-- Embedding of the atomic block of `UartClass::end` (lines 182-191):
disable receiver, transmitter and both interrupt enables, reset the RX
indices, clear `_written`. -/
def end_atomic (s : Uart) : Uart :=
  { s with RXEN := false, TXEN := false, RXCIE := false, DREIE := false,
           rx_buffer_head := s.rx_buffer_tail, written := false }

/-- Embedding of `UartClass::end` (lines 177-193): `flush`, then the atomic
shutdown block. -/
def endCall (N : Nat) (env : List HwEvent) (s : Uart) : Option Uart :=
  (flush N env s).map end_atomic

/-- Unsigned 32-bit wrap (C `unsigned long` arithmetic on AVR GCC). -/
def wrap32 (n : Nat) : Nat := n % 2 ^ 32

/-- Two's-complement reinterpretation of a value into signed 32-bit range,
modelling C `int32_t` conversion and overflow wrap. -/
def wrapI32 (z : Int) : Int := (z + 2 ^ 31) % 2 ^ 32 - 2 ^ 31

/-- Two's-complement truncation to signed 16 bits, modelling the
`(int16_t)` cast in the `BAUD` register store. -/
def toI16 (z : Int) : Int := (z + 2 ^ 15) % 2 ^ 16 - 2 ^ 15

/-- Embedding of line 143: `int32_t baud_setting = (((8 * F_CPU) / baud) + 1) / 2;`
computed in C `unsigned long` (32-bit) arithmetic. -/
def baud_setting_raw (F_CPU baud : Nat) : Nat :=
  wrap32 (wrap32 (8 * F_CPU) / baud + 1) / 2

/-- Embedding of lines 143-145: the initial divisor followed by
`baud_setting += (baud_setting * sigrow_val) / 1024;` in `int32_t`
arithmetic; C division of signed operands truncates toward zero, which is
`Int.tdiv`. -/
def baud_setting (F_CPU baud : Nat) (sigrow_val : Int) : Int :=
  let b := wrapI32 (baud_setting_raw F_CPU baud)
  wrapI32 (b + Int.tdiv (wrapI32 (b * sigrow_val)) 1024)

/-- Embedding of the atomic configuration block of `UartClass::begin`
(lines 148-174), restricted to the engine state: clear `CLK2X`, program
`BAUD` (with the `int16_t` cast of line 162) and `CTRLC`, enable receiver,
transmitter and the receive-complete interrupt.  Pin and port-mux effects
are external (spec section 1). -/
def begin_atomic (baud_reg : Int) (config : Nat) (s : Uart) : Uart :=
  { s with CLK2X := false, BAUD := baud_reg, CTRLC := config,
           RXEN := true, TXEN := true, RXCIE := true }

/-- Embedding of `UartClass::begin` (lines 134-175): when `_written` is
set, first call `end()` and clear `_written`; then compute the divisor and
run the atomic configuration block.  Buffer indices are not touched
anywhere in `begin` itself. -/
def begin (N : Nat) (env : List HwEvent) (F_CPU baud : Nat) (sigrow_val : Int)
    (config : Nat) (s : Uart) : Option Uart :=
  let s0 : Option Uart :=
    if s.written = true then (endCall N env s).map (fun t => { t with written := false })
    else some s
  s0.map (begin_atomic (toI16 (baud_setting F_CPU baud sigrow_val)) config)

/-- Embedding of `UartClass::available` (lines 195-202) for the RX buffer:
`(SERIAL_RX_BUFFER_SIZE + head - tail) % SERIAL_RX_BUFFER_SIZE` (the C
expression never underflows because both indices are below `RN`). -/
def available (RN : Nat) (s : Uart) : Nat :=
  (RN + s.rx_buffer_head - s.rx_buffer_tail) % RN

/-- Embedding of `UartClass::availableForWrite` (lines 232-243): signed
arithmetic on a snapshot of the TX indices. -/
def availableForWrite (N : Nat) (s : Uart) : Int :=
  let head := s.tx_buffer_head
  let tail := s.tx_buffer_tail
  if head ≥ tail then (N : Int) - 1 - head + tail
  else (tail : Int) - head - 1

/-- Number of bytes queued in the TX ring buffer, the `(N + head - tail) % N`
count the spec uses (spec section 8). -/
def txQueued (N : Nat) (s : Uart) : Nat :=
  (N + s.tx_buffer_head - s.tx_buffer_tail) % N

end UartClass

namespace UartClass

/-- One atomic unit of execution on the TX side of a port: one atomic block
of `write` (`attempt`), the real data-register-empty ISR firing (`dre_irq`,
enabled only when `DREIE` and `DREIF` are both set), one call to
`_poll_tx_data_empty` (each iteration of the spin loops of `write` and
`flush` performs exactly one), a hardware progress event, or the atomic
shutdown block of `end` (`end_commit`, whose guard is the exit condition of
the `flush` call that precedes it in `end`). -/
inductive Step (N : Nat) : Uart → Uart → Prop
  | attempt (c : Nat) (s s' : Uart) (r : Nat) :
      write_attempt N c s = some (s', r) → Step N s s'
  | dre_irq (s : Uart) :
      s.DREIE = true → s.DREIF = true → Step N s (tx_data_empty_irq N s)
  | poll (s : Uart) : Step N s (poll_tx_data_empty N s)
  | hw (s : Uart) (e : HwEvent) : Step N s (applyHw e s)
  | end_commit (s : Uart) :
      s.written = false ∨ (s.DREIE = false ∧ s.TXCIF = true) →
      Step N s (end_atomic s)

/-- The inductive invariant of the TX engine.  Conjunct 1 is the claimed
DREIE/buffer coupling; conjuncts 2 and 3 are the auxiliary facts needed to
make it inductive: before the first fast-path write the TX side is
untouched (`DREIF` still at its hardware reset value 1), and `TXCIF` can
only be set while `TXDATAL` is empty (`DREIF` set), since every `TXDATAL`
store in the code clears both flags together. -/
def Inv (s : Uart) : Prop :=
  (s.DREIE = true ↔ s.tx_buffer_head ≠ s.tx_buffer_tail)
  ∧ (s.written = false → s.tx_buffer_head = s.tx_buffer_tail ∧ s.DREIE = false ∧ s.DREIF = true)
  ∧ (s.TXCIF = true → s.DREIF = true)

/-- State of a port freshly configured by its first `begin()`: TX buffer
empty, `DREIE` still at its reset value 0 (`begin` never sets it), `DREIF`
at its hardware reset value 1 (transmitter idle), nothing written yet. -/
def FreshlyBegun (s : Uart) : Prop :=
  s.tx_buffer_head = s.tx_buffer_tail ∧ s.DREIE = false ∧ s.DREIF = true
  ∧ s.written = false

theorem freshlyBegun_inv (s : Uart) (h : FreshlyBegun s) : Inv s := by
  obtain ⟨h1, h2, h3, h4⟩ := h
  refine ⟨?_, fun _ => ⟨h1, h2, h3⟩, fun _ => h3⟩
  constructor
  · intro hd; rw [h2] at hd; cases hd
  · intro hne; exact absurd h1 hne

theorem irq_inv (N : Nat) (s : Uart) (hinv : Inv s) (hen : s.DREIE = true) :
    Inv (tx_data_empty_irq N s) := by
  obtain ⟨h1, h2, h3⟩ := hinv
  have hwr : s.written = true := by
    by_contra hwf
    have := (h2 (by simpa using hwf)).2.1
    rw [this] at hen; cases hen
  simp only [tx_data_empty_irq]
  split
  · next heq =>
    exact ⟨by simp [heq], by simp [hwr], by simp⟩
  · next hne =>
    exact ⟨⟨fun _ => by simpa using hne, fun _ => hen⟩, by simp [hwr], by simp⟩

theorem poll_inv (N : Nat) (s : Uart) (hinv : Inv s) :
    Inv (poll_tx_data_empty N s) := by
  unfold poll_tx_data_empty
  split
  · next hc => exact irq_inv N s hinv hc.1
  · exact hinv

theorem applyHw_inv (e : HwEvent) (s : Uart) (hinv : Inv s) : Inv (applyHw e s) := by
  obtain ⟨h1, h2, h3⟩ := hinv
  cases e with
  | idle => exact ⟨h1, h2, h3⟩
  | shift =>
    exact ⟨by simpa using h1, fun hw => ⟨(h2 hw).1, (h2 hw).2.1, rfl⟩, fun _ => rfl⟩
  | complete =>
    simp only [applyHw]
    split
    · next hd =>
      exact ⟨by simpa using h1, fun hw => ⟨(h2 hw).1, (h2 hw).2.1, hd⟩, fun _ => hd⟩
    · exact ⟨h1, h2, h3⟩

theorem attempt_inv (N : Nat) (c : Nat) (s s' : Uart) (r : Nat)
    (hinv : Inv s) (h : write_attempt N c s = some (s', r)) : Inv s' := by
  obtain ⟨h1, h2, h3⟩ := hinv
  simp only [write_attempt] at h
  split at h
  · next hc =>
    rw [Option.some.injEq, Prod.mk.injEq] at h
    obtain ⟨hs, -⟩ := h
    subst hs
    exact ⟨by simpa using h1, by simp, by simp⟩
  · next hc =>
    split at h
    · next hne =>
      rw [Option.some.injEq, Prod.mk.injEq] at h
      obtain ⟨hs, -⟩ := h
      subst hs
      have hwlit : s.written = true := by
        by_contra hwf
        obtain ⟨-, hdreie, hdreif⟩ := h2 (by simpa using hwf)
        exact hc ⟨hdreie, hdreif⟩
      exact ⟨⟨fun _ => by simpa using hne, fun _ => rfl⟩, by simp [hwlit], by simpa using h3⟩
    · cases h

theorem end_inv (s : Uart) (hinv : Inv s)
    (hguard : s.written = false ∨ (s.DREIE = false ∧ s.TXCIF = true)) :
    Inv (end_atomic s) := by
  obtain ⟨h1, h2, h3⟩ := hinv
  have hempty : s.tx_buffer_head = s.tx_buffer_tail := by
    rcases hguard with hw | ⟨hd, -⟩
    · exact (h2 hw).1
    · by_contra hne
      exact absurd (h1.mpr hne) (by simp [hd])
  have hdreif : s.DREIF = true := by
    rcases hguard with hw | ⟨-, hc⟩
    · exact (h2 hw).2.2
    · exact h3 hc
  exact ⟨by simp [end_atomic, hempty], by simp [end_atomic, hempty, hdreif], by
    simpa [end_atomic] using h3⟩

theorem step_inv (N : Nat) (s s' : Uart) (hinv : Inv s) (h : Step N s s') : Inv s' := by
  cases h with
  | attempt c s s' r hc => exact attempt_inv N c s s' r hinv hc
  | dre_irq s hen _ => exact irq_inv N s hinv hen
  | poll s => exact poll_inv N s hinv
  | hw s e => exact applyHw_inv e s hinv
  | end_commit s hguard => exact end_inv s hinv hguard

theorem reach_inv (N : Nat) (s s' : Uart) (hinv : Inv s)
    (h : Relation.ReflTransGen (Step N) s s') : Inv s' := by
  induction h with
  | refl => exact hinv
  | tail _ hstep ih => exact step_inv N _ _ ih hstep

end UartClass

namespace UartClass

theorem queued_mod_eq (N h t : Nat) (hh : h < N) (ht : t < N) :
    (N + h - t) % N = if t ≤ h then h - t else N + h - t := by
  split
  · next hth =>
    rw [Nat.add_sub_assoc hth, Nat.add_mod_left]
    exact Nat.mod_eq_of_lt (by omega)
  · next hth => exact Nat.mod_eq_of_lt (by omega)

theorem queued_succ (N h t : Nat) (hh : h < N) (ht : t < N) (hne : h ≠ t) :
    (N + h - (t + 1) % N) % N + 1 = (N + h - t) % N := by
  have ht1 : (t + 1) % N = if t + 1 = N then 0 else t + 1 := by
    split
    · next he => rw [he, Nat.mod_self]
    · next he => exact Nat.mod_eq_of_lt (by omega)
  rw [ht1]
  split
  · next he =>
    rw [queued_mod_eq N h 0 hh (by omega), queued_mod_eq N h t hh ht]
    split <;> split <;> omega
  · next he =>
    rw [queued_mod_eq N h (t + 1) hh (by omega), queued_mod_eq N h t hh ht]
    split <;> split <;> omega

theorem div_round_aux (x b : Nat) (hb : 0 < b) : (x + b) / (2 * b) = (x / b + 1) / 2 := by
  have hx := Nat.div_add_mod x b
  have hr : x % b < b := Nat.mod_lt x hb
  have hmm := Nat.div_add_mod (x / b + 1) 2
  have hm2 : (x / b + 1) % 2 ≤ 1 := by omega
  have h1 : x + b = b * (x / b + 1) + x % b := by
    have := Nat.mul_add b (x / b) 1
    omega
  have h2 : b * (x / b + 1) = 2 * b * ((x / b + 1) / 2) + b * ((x / b + 1) % 2) := by
    calc b * (x / b + 1) = b * (2 * ((x / b + 1) / 2) + (x / b + 1) % 2) := by rw [hmm]
    _ = 2 * b * ((x / b + 1) / 2) + b * ((x / b + 1) % 2) := by ring
  have hlt : b * ((x / b + 1) % 2) + x % b < 2 * b := by
    have : b * ((x / b + 1) % 2) ≤ b * 1 := Nat.mul_le_mul_left b hm2
    omega
  have key : x + b = 2 * b * ((x / b + 1) / 2) + (b * ((x / b + 1) % 2) + x % b) := by omega
  rw [key, Nat.mul_add_div (by omega), Nat.div_eq_of_lt hlt]
  omega

theorem flushLoop_exit (N : Nat) (env : List HwEvent) (s s' : Uart)
    (h : flushLoop N env s = some s') : s'.DREIE = false ∧ s'.TXCIF = true := by
  induction env generalizing s with
  | nil =>
    simp only [flushLoop] at h
    split at h
    · next hc => cases h; exact hc
    · cases h
  | cons e rest ih =>
    simp only [flushLoop] at h
    split at h
    · next hc => cases h; exact hc
    · exact ih _ h

theorem irq_written (N : Nat) (s : Uart) :
    (tx_data_empty_irq N s).written = s.written := by
  simp only [tx_data_empty_irq]
  split <;> rfl

theorem poll_written (N : Nat) (s : Uart) :
    (poll_tx_data_empty N s).written = s.written := by
  simp only [poll_tx_data_empty]
  split
  · exact irq_written N s
  · rfl

theorem applyHw_written (e : HwEvent) (s : Uart) :
    (applyHw e s).written = s.written := by
  cases e with
  | idle => rfl
  | shift => rfl
  | complete =>
    simp only [applyHw]
    split <;> rfl

theorem flushLoop_written (N : Nat) (env : List HwEvent) (s s' : Uart)
    (h : flushLoop N env s = some s') : s'.written = s.written := by
  induction env generalizing s with
  | nil =>
    simp only [flushLoop] at h
    split at h
    · cases h; rfl
    · cases h
  | cons e rest ih =>
    simp only [flushLoop] at h
    split at h
    · cases h; rfl
    · rw [ih _ h, poll_written, applyHw_written]

theorem flushLoop_reach (N : Nat) (env : List HwEvent) (s s' : Uart)
    (h : flushLoop N env s = some s') : Relation.ReflTransGen (Step N) s s' := by
  induction env generalizing s with
  | nil =>
    simp only [flushLoop] at h
    split at h
    · cases h; exact .refl
    · cases h
  | cons e rest ih =>
    simp only [flushLoop] at h
    split at h
    · cases h; exact .refl
    · exact .head (Step.hw s e) (.head (Step.poll _) (ih _ h))

theorem flush_reach (N : Nat) (env : List HwEvent) (s s' : Uart)
    (h : flush N env s = some s') : Relation.ReflTransGen (Step N) s s' := by
  simp only [flush] at h
  split at h
  · cases h; exact .refl
  · exact flushLoop_reach N env s s' h

theorem flush_exit (N : Nat) (env : List HwEvent) (s s' : Uart)
    (h : flush N env s = some s') :
    s'.written = false ∨ (s'.DREIE = false ∧ s'.TXCIF = true) := by
  simp only [flush] at h
  split at h
  · next hc => cases h; exact Or.inl hc
  · exact Or.inr (flushLoop_exit N env s s' h)

theorem write_reach (N c : Nat) (env : List HwEvent) (s s' : Uart) (r : Nat)
    (h : write N c env s = some (s', r)) : Relation.ReflTransGen (Step N) s s' := by
  induction env generalizing s with
  | nil =>
    simp only [write] at h
    split at h
    · next heq => cases h; exact .single (Step.attempt c s s' r heq)
    · cases h
  | cons e rest ih =>
    simp only [write] at h
    split at h
    · next heq => cases h; exact .single (Step.attempt c s s' r heq)
    · exact .head (Step.hw s e) (.head (Step.poll _) (ih _ h))

theorem endCall_reach (N : Nat) (env : List HwEvent) (s s' : Uart)
    (h : endCall N env s = some s') : Relation.ReflTransGen (Step N) s s' := by
  unfold endCall at h
  cases hf : flush N env s with
  | none => rw [hf] at h; cases h
  | some s1 =>
    rw [hf] at h
    cases h
    exact .tail (flush_reach N env s s1 hf) (Step.end_commit s1 (flush_exit N env s s1 hf))

end UartClass

namespace UartClass

/-- Helper shared by the handler theorems: the pop in `_tx_data_empty_irq`
decreases the queued-byte count by exactly one when the buffer is
non-empty. -/
theorem irq_queued (N : Nat) (s : Uart)
    (hh : s.tx_buffer_head < N) (ht : s.tx_buffer_tail < N)
    (hne : s.tx_buffer_head ≠ s.tx_buffer_tail) :
    txQueued N (tx_data_empty_irq N s) + 1 = txQueued N s := by
  have hbase : txQueued N (tx_data_empty_irq N s)
      = (N + s.tx_buffer_head - (s.tx_buffer_tail + 1) % N) % N := by
    simp only [txQueued, tx_data_empty_irq]
    split <;> rfl
  rw [hbase]
  exact queued_succ N s.tx_buffer_head s.tx_buffer_tail hh ht hne

/-- State of a port right after its first `begin()` from power-on reset:
all indices zero (BSS-initialised members), `DREIE` clear (reset value,
never set by `begin`), `DREIF` set (transmitter idle after reset),
`_written` false, receiver/transmitter enabled by `begin`. -/
def initState : Uart :=
  { tx_buffer := fun _ => 0, tx_buffer_head := 0, tx_buffer_tail := 0,
    rx_buffer_head := 0, rx_buffer_tail := 0, written := false, DREIE := false,
    RXCIE := true, DREIF := true, TXCIF := false, TXDATAL := 0, RXEN := true,
    TXEN := true, CLK2X := false, BAUD := 0, CTRLC := 3 }

/-- Claim C3: in every state reachable from a freshly-begun port by any
sequence of `write`, `_tx_data_empty_irq`, `_poll_tx_data_empty`, `flush`
and `end` steps (the spin loops of `write` and `flush` decompose into
`Step.attempt`/`Step.poll`/`Step.hw` steps, see `write_reach`,
`flush_reach` and `endCall_reach`), the data-register-empty interrupt
enable bit `DREIE` is set iff the TX ring buffer is non-empty. -/
theorem dreie_tracks_buffer (N : Nat) (s s' : Uart)
    (hfresh : FreshlyBegun s) (hreach : Relation.ReflTransGen (Step N) s s') :
    (s'.DREIE = true ↔ s'.tx_buffer_head ≠ s'.tx_buffer_tail) :=
  (reach_inv N s s' (freshlyBegun_inv s hfresh) hreach).1

/-- Witness for C3 at the concrete fresh state. -/
theorem dreie_tracks_buffer_witness :
    FreshlyBegun initState
    ∧ Relation.ReflTransGen (Step 64) initState initState
    ∧ (initState.DREIE = true ↔ initState.tx_buffer_head ≠ initState.tx_buffer_tail) :=
  ⟨⟨rfl, rfl, rfl, rfl⟩, .refl,
    dreie_tracks_buffer 64 initState initState ⟨rfl, rfl, rfl, rfl⟩ .refl⟩

/-- Claim C4: each invocation of the transmit-data-empty handler pops
exactly one byte (the tail one; tail advances by one modulo the buffer
size and the queued count drops by exactly one), writes that byte to the
hardware data register `TXDATAL`, clears the transmit-complete flag
`TXCIF`, and clears the data-register-empty interrupt enable `DREIE`
exactly when the buffer has become empty after the pop (otherwise `DREIE`
is left unchanged); head and buffer contents are untouched. -/
theorem tx_irq_pops_one (N : Nat) (s : Uart)
    (hh : s.tx_buffer_head < N) (ht : s.tx_buffer_tail < N)
    (hne : s.tx_buffer_head ≠ s.tx_buffer_tail) :
    (tx_data_empty_irq N s).tx_buffer_tail = (s.tx_buffer_tail + 1) % N
    ∧ (tx_data_empty_irq N s).TXDATAL = s.tx_buffer s.tx_buffer_tail
    ∧ (tx_data_empty_irq N s).TXCIF = false
    ∧ (tx_data_empty_irq N s).tx_buffer_head = s.tx_buffer_head
    ∧ (tx_data_empty_irq N s).tx_buffer = s.tx_buffer
    ∧ txQueued N (tx_data_empty_irq N s) + 1 = txQueued N s
    ∧ (s.tx_buffer_head = (s.tx_buffer_tail + 1) % N → (tx_data_empty_irq N s).DREIE = false)
    ∧ (s.tx_buffer_head ≠ (s.tx_buffer_tail + 1) % N → (tx_data_empty_irq N s).DREIE = s.DREIE) := by
  refine ⟨?_, ?_, ?_, ?_, ?_, irq_queued N s hh ht hne, ?_, ?_⟩
  · simp only [tx_data_empty_irq]; split <;> rfl
  · simp only [tx_data_empty_irq]; split <;> rfl
  · simp only [tx_data_empty_irq]; split <;> rfl
  · simp only [tx_data_empty_irq]; split <;> rfl
  · simp only [tx_data_empty_irq]; split <;> rfl
  · intro he; simp [tx_data_empty_irq, he]
  · intro hne2; simp [tx_data_empty_irq, hne2]

/-- State with one byte (65) queued at slot 0, `DREIE` set, used as a
concrete witness input. -/
def oneQueued : Uart :=
  { initState with
      tx_buffer := Function.update (fun _ => 0) 0 65
      tx_buffer_head := 1
      DREIE := true
      DREIF := true
      written := true }

/-- Witness for C4 at a concrete one-byte state. -/
theorem tx_irq_pops_one_witness :
    oneQueued.tx_buffer_head < 64 ∧ oneQueued.tx_buffer_tail < 64
    ∧ oneQueued.tx_buffer_head ≠ oneQueued.tx_buffer_tail
    ∧ ((tx_data_empty_irq 64 oneQueued).tx_buffer_tail = (oneQueued.tx_buffer_tail + 1) % 64
      ∧ (tx_data_empty_irq 64 oneQueued).TXDATAL = oneQueued.tx_buffer oneQueued.tx_buffer_tail
      ∧ (tx_data_empty_irq 64 oneQueued).TXCIF = false
      ∧ (tx_data_empty_irq 64 oneQueued).tx_buffer_head = oneQueued.tx_buffer_head
      ∧ (tx_data_empty_irq 64 oneQueued).tx_buffer = oneQueued.tx_buffer
      ∧ txQueued 64 (tx_data_empty_irq 64 oneQueued) + 1 = txQueued 64 oneQueued
      ∧ (oneQueued.tx_buffer_head = (oneQueued.tx_buffer_tail + 1) % 64 →
          (tx_data_empty_irq 64 oneQueued).DREIE = false)
      ∧ (oneQueued.tx_buffer_head ≠ (oneQueued.tx_buffer_tail + 1) % 64 →
          (tx_data_empty_irq 64 oneQueued).DREIE = oneQueued.DREIE)) :=
  ⟨by decide, by decide, by decide,
    tx_irq_pops_one 64 oneQueued (by decide) (by decide) (by decide)⟩

/-- Claim C5: `_tx_data_empty_irq` pops without an emptiness check, but
under the coupling invariant (`DREIE` set only when the buffer is
non-empty) every call reached through `_poll_tx_data_empty` — which fires
the handler only when `DREIE` and `DREIF` are both set inside its critical
section — runs on a non-empty buffer, so the pop reads an occupied slot
(queued count positive) and tail never overtakes head (the count drops by
exactly one, staying non-negative). -/
theorem poll_pop_safe (N : Nat) (s : Uart)
    (hh : s.tx_buffer_head < N) (ht : s.tx_buffer_tail < N)
    (hinv : s.DREIE = true ↔ s.tx_buffer_head ≠ s.tx_buffer_tail)
    (hen : s.DREIE = true) (hflag : s.DREIF = true) :
    poll_tx_data_empty N s = tx_data_empty_irq N s
    ∧ s.tx_buffer_head ≠ s.tx_buffer_tail
    ∧ 0 < txQueued N s
    ∧ txQueued N (tx_data_empty_irq N s) + 1 = txQueued N s := by
  have hne := hinv.mp hen
  have hq := irq_queued N s hh ht hne
  exact ⟨by simp [poll_tx_data_empty, hen, hflag], hne, by omega, hq⟩

/-- Witness for C5 at a concrete one-byte state. -/
theorem poll_pop_safe_witness :
    oneQueued.tx_buffer_head < 64 ∧ oneQueued.tx_buffer_tail < 64
    ∧ (oneQueued.DREIE = true ↔ oneQueued.tx_buffer_head ≠ oneQueued.tx_buffer_tail)
    ∧ oneQueued.DREIE = true ∧ oneQueued.DREIF = true
    ∧ (poll_tx_data_empty 64 oneQueued = tx_data_empty_irq 64 oneQueued
      ∧ oneQueued.tx_buffer_head ≠ oneQueued.tx_buffer_tail
      ∧ 0 < txQueued 64 oneQueued
      ∧ txQueued 64 (tx_data_empty_irq 64 oneQueued) + 1 = txQueued 64 oneQueued) :=
  ⟨by decide, by decide, by decide, by decide, by decide,
    poll_pop_safe 64 oneQueued (by decide) (by decide) (by decide) (by decide) (by decide)⟩

/-- Claim C9: for TX indices inside the buffer, `availableForWrite` equals
capacity minus one minus the queued count, and is never negative. -/
theorem availableForWrite_spec (N : Nat) (s : Uart)
    (hh : s.tx_buffer_head < N) (ht : s.tx_buffer_tail < N) :
    availableForWrite N s = (N : Int) - 1 - (txQueued N s : Int)
    ∧ 0 ≤ availableForWrite N s := by
  have hq := queued_mod_eq N s.tx_buffer_head s.tx_buffer_tail hh ht
  simp only [availableForWrite, txQueued]
  rw [hq]
  constructor
  · split <;> omega
  · split <;> omega

/-- Witness for C9 at a concrete one-byte state. -/
theorem availableForWrite_spec_witness :
    oneQueued.tx_buffer_head < 64 ∧ oneQueued.tx_buffer_tail < 64
    ∧ (availableForWrite 64 oneQueued = (64 : Int) - 1 - (txQueued 64 oneQueued : Int)
      ∧ 0 ≤ availableForWrite 64 oneQueued) :=
  ⟨by decide, by decide, availableForWrite_spec 64 oneQueued (by decide) (by decide)⟩

end UartClass

namespace UartClass

/-- Helper: every successful atomic write attempt returns the count 1. -/
theorem write_attempt_ret (N c : Nat) (s s' : Uart) (r : Nat)
    (h : write_attempt N c s = some (s', r)) : r = 1 := by
  simp only [write_attempt] at h
  split at h
  · rw [Option.some.injEq, Prod.mk.injEq] at h
    exact h.2.symm
  · split at h
    · rw [Option.some.injEq, Prod.mk.injEq] at h
      exact h.2.symm
    · cases h

/-- Helper: a successful attempt short-circuits the retry loop of `write`. -/
theorem write_of_attempt (N c : Nat) (env : List HwEvent) (s : Uart) (r : Uart × Nat)
    (h : write_attempt N c s = some r) : write N c env s = some r := by
  cases env <;> simp [write, h]

/-- Claim C1: whenever `write(c)` returns it returns 1; on the fast path
(`DREIE` clear, `DREIF` set) it stores `c` directly to the hardware data
register; on the buffered path it enqueues `c` at `head` and sets `DREIE`;
and when the TX buffer is full the attempt changes nothing — the loop
simply polls and retries from the polled state. -/
theorem write_returns_one (N c : Nat) (env : List HwEvent) (s : Uart) :
    (∀ s' r, write N c env s = some (s', r) → r = 1)
    ∧ (s.DREIE = false ∧ s.DREIF = true →
        write N c env s =
          some ({ s with TXDATAL := c, DREIF := false, TXCIF := false, written := true }, 1))
    ∧ (¬(s.DREIE = false ∧ s.DREIF = true) → (s.tx_buffer_head + 1) % N ≠ s.tx_buffer_tail →
        write N c env s =
          some ({ s with
                    tx_buffer := Function.update s.tx_buffer s.tx_buffer_head c
                    tx_buffer_head := (s.tx_buffer_head + 1) % N
                    DREIE := true }, 1))
    ∧ (∀ e rest, env = e :: rest → write_attempt N c s = none →
        write N c env s = write N c rest (poll_tx_data_empty N (applyHw e s))) := by
  refine ⟨?_, ?_, ?_, ?_⟩
  · intro s' r h
    induction env generalizing s with
    | nil =>
      simp only [write] at h
      split at h
      · next heq => cases h; exact write_attempt_ret N c _ s' r heq
      · cases h
    | cons e rest ih =>
      simp only [write] at h
      split at h
      · next heq => cases h; exact write_attempt_ret N c _ s' r heq
      · exact ih _ h
  · intro hc
    refine write_of_attempt N c env s _ ?_
    simp [write_attempt, hc.1, hc.2]
  · intro hc hroom
    refine write_of_attempt N c env s _ ?_
    simp only [write_attempt, if_neg hc, if_pos hroom]
  · intro e rest henv hnone
    subst henv
    simp [write, hnone]

/-- Witness for C1: a fast-path write at the fresh state. -/
theorem write_returns_one_witness :
    (initState.DREIE = false ∧ initState.DREIF = true)
    ∧ write 64 65 [] initState =
        some ({ initState with TXDATAL := 65, DREIF := false, TXCIF := false, written := true }, 1) :=
  ⟨⟨rfl, rfl⟩, (write_returns_one 64 65 [] initState).2.1 ⟨rfl, rfl⟩⟩

/-- Claim C2: `flush()` returns immediately, with the state unchanged, when
`_written` is false; otherwise, whenever the spin loop returns, `DREIE` is
clear and `TXCIF` is set, and (through the coupling invariant, which the
loop preserves) the TX buffer is empty. -/
theorem flush_spec (N : Nat) (env : List HwEvent) (s : Uart) (hinv : Inv s) :
    (s.written = false → flush N env s = some s)
    ∧ (s.written = true → ∀ s', flush N env s = some s' →
        s'.DREIE = false ∧ s'.TXCIF = true ∧ s'.tx_buffer_head = s'.tx_buffer_tail) := by
  constructor
  · intro hwf
    simp [flush, hwf]
  · intro hwt s' h
    have hreach := flush_reach N env s s' h
    have hinv' := reach_inv N s s' hinv hreach
    simp only [flush, hwt] at h
    have hexit := flushLoop_exit N env s s' h
    refine ⟨hexit.1, hexit.2, ?_⟩
    by_contra hne
    have := hinv'.1.mpr hne
    rw [hexit.1] at this
    cases this

/-- Witness for C2 at the fresh state, never-written branch. -/
theorem flush_spec_witness :
    Inv initState ∧ initState.written = false ∧ flush 64 [] initState = some initState :=
  ⟨by unfold Inv; decide, rfl, (flush_spec 64 [] initState (by unfold Inv; decide)).1 rfl⟩

/-- Claim C10: the buffered path of `write` enqueues the byte but leaves
`_written` unchanged (only the fast path sets it); hence if `_written` is
still false after such a write, `flush()` returns immediately even though
the byte remains queued. -/
theorem buffered_write_skips_written (N c : Nat) (env : List HwEvent) (s : Uart)
    (hslow : ¬(s.DREIE = false ∧ s.DREIF = true))
    (hroom : (s.tx_buffer_head + 1) % N ≠ s.tx_buffer_tail) :
    ∃ s', write_attempt N c s = some (s', 1)
      ∧ s'.written = s.written
      ∧ s'.tx_buffer_head ≠ s'.tx_buffer_tail
      ∧ s'.tx_buffer s.tx_buffer_head = c
      ∧ (s.written = false → flush N env s' = some s') := by
  refine ⟨{ s with
              tx_buffer := Function.update s.tx_buffer s.tx_buffer_head c
              tx_buffer_head := (s.tx_buffer_head + 1) % N
              DREIE := true }, ?_, rfl, ?_, ?_, ?_⟩
  · simp only [write_attempt, if_neg hslow, if_pos hroom]
  · simpa using hroom
  · simp
  · intro hwf
    simp [flush, hwf]

/-- State whose hardware data register is busy (`DREIF` clear), never
written: the first `write` lands on the buffered path. -/
def busyState : Uart := { initState with DREIF := false }

/-- Witness for C10 at the busy never-written state. -/
theorem buffered_write_skips_written_witness :
    ¬(busyState.DREIE = false ∧ busyState.DREIF = true)
    ∧ (busyState.tx_buffer_head + 1) % 64 ≠ busyState.tx_buffer_tail
    ∧ (∃ s', write_attempt 64 66 busyState = some (s', 1)
        ∧ s'.written = busyState.written
        ∧ s'.tx_buffer_head ≠ s'.tx_buffer_tail
        ∧ s'.tx_buffer busyState.tx_buffer_head = 66
        ∧ (busyState.written = false → flush 64 [] s' = some s')) :=
  ⟨by decide, by decide,
    buffered_write_skips_written 64 66 [] busyState (by decide) (by decide)⟩

end UartClass

namespace UartClass

/-- Helper: `flush` never changes `_written`. -/
theorem flush_written (N : Nat) (env : List HwEvent) (s s' : Uart)
    (h : flush N env s = some s') : s'.written = s.written := by
  simp only [flush] at h
  split at h
  · cases h; rfl
  · exact flushLoop_written N env s s' h

/-- An enabled, freshly-begun port with one unread RX byte (head 1, tail 0)
and nothing ever written. -/
def rxPending : Uart := { initState with rx_buffer_head := 1 }

/-- Counterexample to claim C6 as stated: `begin()` is called on a port
holding one unread RX byte with `_written` false; `begin` performs no index
reset (the code never touches the buffer indices), so immediately after
`begin` returns, `available()` is 1, not 0. -/
theorem begin_resets_counterexample :
    rxPending.written = false
    ∧ (begin 64 [] 16000000 9600 0 3 rxPending).map (available 64) = some 1 :=
  ⟨rfl, rfl⟩

/-- Claim C6 (amended): `begin()` itself never touches the buffer indices.
When `_written` is true at entry, the implicit `end()` resets the RX
indices and (through `flush` and the coupling invariant) leaves the TX
buffer empty, so both buffers are empty when `begin` returns; when
`_written` is false, `begin` leaves all four buffer indices exactly as they
were, so unread RX bytes (and any queued TX bytes) survive `begin`. -/
theorem begin_buffer_reset_amended (N : Nat) (env : List HwEvent) (F baud : Nat)
    (sig : Int) (cfg : Nat) (s t : Uart) (hinv : Inv s)
    (h : begin N env F baud sig cfg s = some t) :
    (s.written = true → t.rx_buffer_head = t.rx_buffer_tail
      ∧ t.tx_buffer_head = t.tx_buffer_tail)
    ∧ (s.written = false → t.rx_buffer_head = s.rx_buffer_head
      ∧ t.rx_buffer_tail = s.rx_buffer_tail
      ∧ t.tx_buffer_head = s.tx_buffer_head
      ∧ t.tx_buffer_tail = s.tx_buffer_tail) := by
  constructor
  · intro hwt
    rcases hf : flush N env s with _ | s1
    · simp [begin, endCall, hwt, hf] at h
    · have hs1w : s1.written = true := by rw [flush_written N env s s1 hf, hwt]
      have hinv1 := reach_inv N s s1 hinv (flush_reach N env s s1 hf)
      have hempty : s1.tx_buffer_head = s1.tx_buffer_tail := by
        rcases flush_exit N env s s1 hf with hw | ⟨hd, -⟩
        · rw [hs1w] at hw; cases hw
        · by_contra hne
          have := hinv1.1.mpr hne
          rw [hd] at this; cases this
      simp [begin, endCall, hwt, hf] at h
      subst h
      exact ⟨rfl, hempty⟩
  · intro hwf
    simp [begin, hwf] at h
    subst h
    exact ⟨rfl, rfl, rfl, rfl⟩

/-- Result of the `_written = false` branch of `begin` on `rxPending`. -/
def tC6 : Uart := begin_atomic (toI16 (baud_setting 16000000 9600 0)) 3 rxPending

/-- Witness for the amended C6 at the concrete unread-RX state. -/
theorem begin_buffer_reset_amended_witness :
    Inv rxPending
    ∧ begin 64 [] 16000000 9600 0 3 rxPending = some tC6
    ∧ ((rxPending.written = true → tC6.rx_buffer_head = tC6.rx_buffer_tail
        ∧ tC6.tx_buffer_head = tC6.tx_buffer_tail)
      ∧ (rxPending.written = false → tC6.rx_buffer_head = rxPending.rx_buffer_head
        ∧ tC6.rx_buffer_tail = rxPending.rx_buffer_tail
        ∧ tC6.tx_buffer_head = rxPending.tx_buffer_head
        ∧ tC6.tx_buffer_tail = rxPending.tx_buffer_tail)) :=
  ⟨by unfold Inv; decide, rfl,
    begin_buffer_reset_amended 64 [] 16000000 9600 0 3 rxPending tC6
      (by unfold Inv; decide) rfl⟩

/-- Counterexample to claim C7 as stated: the port `rxPending` is enabled
(receiver and transmitter on — a previous `begin` happened with no
intervening `end`) and holds one unread RX byte, yet `begin()` performs no
implicit `end()`: the unread byte is still there afterwards (head 1,
tail 0), because the code's trigger is `_written`, which is false here
since no byte was ever written. -/
theorem begin_implicit_end_counterexample :
    rxPending.RXEN = true ∧ rxPending.TXEN = true ∧ rxPending.written = false
    ∧ (begin 64 [] 16000000 9600 0 3 rxPending).map
        (fun t => (t.rx_buffer_head, t.rx_buffer_tail)) = some (1, 0) :=
  ⟨rfl, rfl, rfl, rfl⟩

/-- Claim C7 (amended): when `_written` is true at entry (at least one byte
was fast-path-written since the last `begin`/`end`), `begin()` first
performs an implicit `end()` — flush, hardware shutdown, RX discard —
before reconfiguring, and the rebuilt port has `_written` false, empty RX
indices and receiver/transmitter re-enabled. -/
theorem begin_implicit_end_amended (N : Nat) (env : List HwEvent) (F baud : Nat)
    (sig : Int) (cfg : Nat) (s : Uart) (hwt : s.written = true) :
    begin N env F baud sig cfg s =
      (endCall N env s).map (fun u =>
        begin_atomic (toI16 (baud_setting F baud sig)) cfg { u with written := false })
    ∧ (∀ t, begin N env F baud sig cfg s = some t →
        t.written = false ∧ t.rx_buffer_head = t.rx_buffer_tail
        ∧ t.RXEN = true ∧ t.TXEN = true) := by
  constructor
  · simp [begin, hwt, Option.map_map, Function.comp_def]
  · intro t h
    rcases hf : flush N env s with _ | s1
    · simp [begin, endCall, hwt, hf] at h
    · simp [begin, endCall, hwt, hf] at h
      subst h
      exact ⟨rfl, rfl, rfl, rfl⟩

/-- A port that has fast-path-written a byte whose transmission already
completed: `_written` and `TXCIF` set, nothing queued. -/
def writtenState : Uart := { initState with written := true, TXCIF := true }

/-- Witness for the amended C7 at the concrete written state. -/
theorem begin_implicit_end_amended_witness :
    writtenState.written = true
    ∧ (begin 64 [] 16000000 9600 0 3 writtenState =
        (endCall 64 [] writtenState).map (fun u =>
          begin_atomic (toI16 (baud_setting 16000000 9600 0)) 3 { u with written := false })
      ∧ (∀ t, begin 64 [] 16000000 9600 0 3 writtenState = some t →
          t.written = false ∧ t.rx_buffer_head = t.rx_buffer_tail
          ∧ t.RXEN = true ∧ t.TXEN = true)) :=
  ⟨rfl, begin_implicit_end_amended 64 [] 16000000 9600 0 3 writtenState rfl⟩

end UartClass

namespace UartClass

/-- Values already inside the signed 32-bit range are fixed by the wrap. -/
theorem wrapI32_eq (z : Int) (h1 : -(2 ^ 31) ≤ z) (h2 : z < 2 ^ 31) : wrapI32 z = z := by
  unfold wrapI32
  omega

/-- The first divisor line of `begin` computes exactly the half-up rounding
of `8 * F_CPU / baud / 2` once no 32-bit wrap occurs. -/
theorem raw_eq_round (F baud : Nat) (hb : 0 < baud) (hF : 8 * F < 2 ^ 31) :
    ((baud_setting_raw F baud : Nat) : Int) = round ((8 * F : ℚ) / baud / 2) := by
  have h1 : wrap32 (8 * F) = 8 * F := Nat.mod_eq_of_lt (by omega)
  have h2 : wrap32 (8 * F / baud + 1) = 8 * F / baud + 1 := by
    have := Nat.div_le_self (8 * F) baud
    exact Nat.mod_eq_of_lt (by omega)
  have hraw : baud_setting_raw F baud = (8 * F + baud) / (2 * baud) := by
    rw [baud_setting_raw, h1, h2, ← div_round_aux (8 * F) baud hb]
  have hbq : ((baud : ℚ)) ≠ 0 := by
    have : (0 : ℚ) < baud := by exact_mod_cast hb
    exact ne_of_gt this
  have hq : (8 * F : ℚ) / baud / 2 + 1 / 2 = ((8 * F + baud : ℕ) : ℚ) / ((2 * baud : ℕ) : ℚ) := by
    push_cast
    field_simp
    ring
  rw [hraw, round_eq, hq, Rat.floor_natCast_div_natCast]
  exact Int.natCast_div _ _

/-- Bounds for the calibration term `(R * trim) / 1024` computed with C
truncating division, for a non-negative divisor `R` and an `int8_t`
trim. -/
theorem tdiv_1024_bounds (R trim : Int) (hR : 0 ≤ R)
    (ht1 : -128 ≤ trim) (ht2 : trim ≤ 127) :
    -(128 * R) ≤ Int.tdiv (R * trim) 1024 ∧ Int.tdiv (R * trim) 1024 ≤ R := by
  rcases le_or_lt 0 (R * trim) with hx | hx
  · rw [Int.tdiv_eq_ediv hx (by norm_num)]
    constructor
    · have h0 : (0 : Int) ≤ R * trim / 1024 := Int.ediv_nonneg hx (by norm_num)
      nlinarith
    · have hle : R * trim ≤ 128 * R := by nlinarith
      calc R * trim / 1024 ≤ 128 * R / 1024 := Int.ediv_le_ediv (by norm_num) hle
        _ ≤ 1024 * R / 1024 := Int.ediv_le_ediv (by norm_num) (by nlinarith)
        _ = R := Int.mul_ediv_cancel_left R (by norm_num)
  · have h1 : Int.tdiv (R * trim) 1024 = -(Int.tdiv (-(R * trim)) 1024) := by
      rw [← Int.neg_tdiv, Int.neg_neg]
    have hxp : (0 : Int) ≤ -(R * trim) := by omega
    have h2 : Int.tdiv (-(R * trim)) 1024 = -(R * trim) / 1024 :=
      Int.tdiv_eq_ediv hxp (by norm_num)
    have h3 : -(R * trim) / 1024 ≤ -(R * trim) := Int.ediv_le_self 1024 hxp
    have h4 : -(R * trim) ≤ 128 * R := by nlinarith
    have h5 : (0 : Int) ≤ -(R * trim) / 1024 := Int.ediv_nonneg hxp (by norm_num)
    constructor
    · omega
    · omega

/-- With no 32-bit overflow anywhere, `baud_setting` is the exact integer
formula divisor plus divisor times trim over 1024. -/
theorem baud_setting_eq (F baud : Nat) (trim : Int)
    (hsmall : 128 * ((baud_setting_raw F baud : Nat) : Int) < 2 ^ 31)
    (ht1 : -128 ≤ trim) (ht2 : trim ≤ 127) :
    baud_setting F baud trim =
      ((baud_setting_raw F baud : Nat) : Int)
        + Int.tdiv (((baud_setting_raw F baud : Nat) : Int) * trim) 1024 := by
  have hR0 : (0 : Int) ≤ ((baud_setting_raw F baud : Nat) : Int) := Int.natCast_nonneg _
  have hbd := tdiv_1024_bounds ((baud_setting_raw F baud : Nat) : Int) trim hR0 ht1 ht2
  have hmul1 : ((baud_setting_raw F baud : Nat) : Int) * (-128)
      ≤ ((baud_setting_raw F baud : Nat) : Int) * trim :=
    mul_le_mul_of_nonneg_left ht1 hR0
  have hmul2 : ((baud_setting_raw F baud : Nat) : Int) * trim
      ≤ ((baud_setting_raw F baud : Nat) : Int) * 127 :=
    mul_le_mul_of_nonneg_left ht2 hR0
  simp only [baud_setting]
  rw [wrapI32_eq ((baud_setting_raw F baud : Nat) : Int) (by omega) (by omega)]
  rw [wrapI32_eq (((baud_setting_raw F baud : Nat) : Int) * trim) (by omega) (by omega)]
  rw [wrapI32_eq _ (by omega) (by omega)]

/-- Claim C8: for every clock frequency and baud rate (within the 32-bit
ranges the C types can represent exactly, and a result fitting the 16-bit
`BAUD` register), `begin` programs the baud register with
`round(8 * clockFreq / baudRate / 2)` plus `divisor * trim / 1024`, where
`trim` is the signed `SIGROW.OSC16ERR5V` calibration value and the
division truncates as in C. -/
theorem begin_baud_formula (N : Nat) (env : List HwEvent) (F baud : Nat) (trim : Int)
    (cfg : Nat) (s t : Uart)
    (hb : 0 < baud) (hF : 8 * F < 2 ^ 31)
    (hsmall : 128 * ((baud_setting_raw F baud : Nat) : Int) < 2 ^ 31)
    (ht1 : -128 ≤ trim) (ht2 : trim ≤ 127)
    (hfit1 : -(2 ^ 15) ≤ baud_setting F baud trim)
    (hfit2 : baud_setting F baud trim < 2 ^ 15)
    (h : begin N env F baud trim cfg s = some t) :
    t.BAUD = round ((8 * F : ℚ) / baud / 2)
      + Int.tdiv (round ((8 * F : ℚ) / baud / 2) * trim) 1024 := by
  have hBAUD : t.BAUD = toI16 (baud_setting F baud trim) := by
    by_cases hwc : s.written = true
    · rcases hf : flush N env s with _ | s1
      · simp [begin, endCall, hwc, hf] at h
      · simp [begin, endCall, hwc, hf] at h
        subst h
        rfl
    · have hwf : s.written = false := by simpa using hwc
      simp [begin, hwf] at h
      subst h
      rfl
  have h16 : toI16 (baud_setting F baud trim) = baud_setting F baud trim := by
    unfold toI16
    omega
  rw [hBAUD, h16, baud_setting_eq F baud trim hsmall ht1 ht2,
    raw_eq_round F baud hb hF]

/-- Result of `begin(9600, cfg 3)` with trim 3 on the fresh state. -/
def tC8 : Uart := begin_atomic (toI16 (baud_setting 16000000 9600 3)) 3 initState

/-- Witness for C8 at 16 MHz, 9600 baud, trim 3. -/
theorem begin_baud_formula_witness :
    0 < 9600 ∧ 8 * 16000000 < 2 ^ 31
    ∧ 128 * ((baud_setting_raw 16000000 9600 : Nat) : Int) < 2 ^ 31
    ∧ (-128 : Int) ≤ 3 ∧ (3 : Int) ≤ 127
    ∧ -(2 ^ 15) ≤ baud_setting 16000000 9600 3
    ∧ baud_setting 16000000 9600 3 < 2 ^ 15
    ∧ begin 64 [] 16000000 9600 3 3 initState = some tC8
    ∧ tC8.BAUD = round ((8 * 16000000 : ℚ) / 9600 / 2)
        + Int.tdiv (round ((8 * 16000000 : ℚ) / 9600 / 2) * 3) 1024 :=
  ⟨by decide, by decide, by decide, by decide, by decide, by decide, by decide, rfl,
    begin_baud_formula 64 [] 16000000 9600 3 3 initState tC8 (by decide) (by decide)
      (by decide) (by decide) (by decide) (by decide) (by decide) rfl⟩

end UartClass
